import Mathlib

/-!
Verification development for the llm-dom-selector repository.

The definitions below are a shallow embedding of the TypeScript sources:

* `src/scripts/domExtractor.ts` — the snapshot traversal (`buildDomTreeOverlay`,
  `traverseElement`, `isElementVisible`, `isElementInteractive`, `getXPath`);
* `src/services/browserContext.ts` — selector synthesis
  (`_enhanced_css_selector_for_element`, `_convert_simple_xpath_to_css_selector`),
  state refresh (`updateState`) and the click/fill action paths
  (`_click_element_node`, `_input_text_element_node`);
* `src/services/llmSelector.ts` — `parseLLMResponse` and the `selectElement`
  retry loop.

JavaScript machine strings are modelled as Lean `String`, numbers occurring in
geometry as `Int` (the code only compares and adds pixel geometry, and every
comparison is order-theoretic),
counters as `Nat`, nullable values as `Option`, and thrown exceptions as the
`Except` error channel.  String primitives that the embedding needs
(`trim`, `split`, `replace`, `toLowerCase`, whitespace collapsing) are defined
below on `List Char` by structural recursion so that every definition in this
file evaluates inside the kernel.
-/

/-! ## JavaScript string primitives -/

/-- Whitespace characters recognised by the JavaScript `\s` class, `trim` and
`split`: space, tab, line feed, carriage return, vertical tab, form feed
(the exotic Unicode space code points are not exercised by this repository). -/
def isJsSpace (c : Char) : Bool :=
  c = ' ' || c = '\t' || c = '\n' || c = '\r' || c = Char.ofNat 11 || c = Char.ofNat 12

/-- JavaScript `String.prototype.trim`, on the character list. -/
def trimChars (l : List Char) : List Char :=
  ((l.dropWhile isJsSpace).reverse.dropWhile isJsSpace).reverse

/-- JavaScript `String.prototype.trim`. -/
def jsTrim (s : String) : String :=
  String.mk (trimChars s.data)

/-- JavaScript `s.split(c)` for a single-character separator: splits at every
occurrence, keeping empty fragments (so `"".split(" ")` is `[""]` and
`"a  b".split(" ")` is `["a", "", "b"]`). -/
def splitChar (c : Char) (l : List Char) : List (List Char) :=
  match l with
  | [] => [[]]
  | x :: xs =>
    let r := splitChar c xs
    if x = c then [] :: r
    else
      match r with
      | h :: t => (x :: h) :: t
      | [] => [[x]]

/-- JavaScript `s.split(" ")`. -/
def jsSplitSpace (s : String) : List String :=
  (splitChar ' ' s.data).map String.mk

/-- Fuel-driven worker for global (left-to-right, non-overlapping) string
replacement; the fuel is an upper bound on the number of characters left. -/
def replaceGo (pat rep : List Char) : Nat → List Char → List Char
  | _, [] => []
  | 0, s => s
  | Nat.succ n, c :: rest =>
    if pat.isPrefixOf (c :: rest) then rep ++ replaceGo pat rep n ((c :: rest).drop pat.length)
    else c :: replaceGo pat rep n rest

/-- JavaScript `s.replace(/pat/g, rep)` for a literal, non-empty pattern. -/
def jsReplaceAll (s pat rep : String) : String :=
  if pat.data.isEmpty then s
  else String.mk (replaceGo pat.data rep.data s.data.length s.data)

/-- JavaScript `s.startsWith(p)`. -/
def jsStartsWith (s p : String) : Bool :=
  p.data.isPrefixOf s.data

/-- JavaScript `s.toLowerCase()` on the ASCII letters (tag names only contain
ASCII). -/
def jsToLower (s : String) : String :=
  String.mk (s.data.map Char.toLower)

/-- Membership of a string in a list of strings (the JavaScript
`Array.prototype.includes` / `Set.prototype.has` used by the sources). -/
def strListHas (l : List String) (x : String) : Bool :=
  l.any (fun y => decide (y = x))

/-- Lookup in an association list by decidable equality; models both reading a
DOM attribute (`getAttribute`, absent ↦ `null`) and index lookup in a
JavaScript object keyed by numbers. -/
def lookupEq {α β : Type} [DecidableEq α] (m : List (α × β)) (k : α) : Option β :=
  match m with
  | [] => none
  | (a, b) :: t => if a = k then some b else lookupEq t k

/-- Worker for substring search. -/
def listContains (hay needle : List Char) : Bool :=
  needle.isPrefixOf hay ||
    (match hay with
     | [] => false
     | _ :: t => listContains t needle)

/-- Substring test: `strContains hay needle` is true when `needle` occurs
contiguously inside `hay` (JavaScript `String.prototype.includes`). -/
def strContains (hay needle : String) : Bool :=
  listContains hay.data needle.data

/-! ## DOM snapshot model (src/scripts/domExtractor.ts)

A live document is modelled as a tree of element and text nodes.  An element
carries the observable inputs the extractor reads from the live page: its tag
name (as `tagName`/`nodeName` report it, upper case for HTML), its attribute
list in document order, its computed style, and its bounding client rect. -/

/-- The part of `window.getComputedStyle` the extractor reads. -/
structure Style where
  display : String
  visibility : String
  deriving DecidableEq, Repr

/-- The part of `getBoundingClientRect` the extractor reads.  A DOM rect
satisfies `right = left + width` and `bottom = top + height` by construction,
so those two fields are derived. -/
structure Rect where
  left : Int
  top : Int
  width : Int
  height : Int
  deriving DecidableEq, Repr

/-- The `right` field of a DOM rect. -/
def Rect.right (r : Rect) : Int := r.left + r.width

/-- The `bottom` field of a DOM rect. -/
def Rect.bottom (r : Rect) : Int := r.top + r.height

mutual
/-- A node of the live document: an element (tag, attributes, computed style,
bounding rect, child nodes in document order) or a text node. -/
inductive Dom where
  | elem (tag : String) (attrs : List (String × String)) (style : Style)
      (rect : Rect) (children : DomList)
  | textNode (content : String)
/-- A list of sibling DOM nodes (mutual with `Dom`). -/
inductive DomList where
  | nil
  | cons (d : Dom) (ds : DomList)
end

mutual
/-- JavaScript `node.textContent` for an element: concatenation of the data of
all descendant text nodes in document order. -/
def Dom.textContentAll : Dom → String
  | .elem _ _ _ _ cs => DomList.textContentAll cs
  | .textNode s => s
/-- Concatenated text content of a sibling list (mutual with
`Dom.textContentAll`). -/
def DomList.textContentAll : DomList → String
  | .nil => ""
  | .cons d ds => Dom.textContentAll d ++ DomList.textContentAll ds
end

/-- The `viewport` object captured at the start of `buildDomTreeOverlay`
(`window.innerWidth` / `window.innerHeight`). -/
structure ViewportInfo where
  width : Int
  height : Int
  deriving DecidableEq, Repr

/-- The arguments of `buildDomTreeOverlay` that affect the produced node map
(`doHighlightElements` and `focusHighlightIndex` only drive the visual overlay
subtree, which has no semantic effect on the snapshot and is elided here). -/
structure BuildArgs where
  viewport : ViewportInfo
  viewportExpansion : Int
  deriving DecidableEq, Repr

/-- The `nodeType` constant `Node.ELEMENT_NODE`. -/
def Node_ELEMENT_NODE : Nat := 1

/-- The `nodeType` constant `Node.TEXT_NODE`. -/
def Node_TEXT_NODE : Nat := 3

/-- The `nodeType` of the node `traverseElement` is processing.  Both call
sites of `traverseElement` pass DOM `Element` values (`document.body`, and
child nodes guarded by `childNode.nodeType === Node.ELEMENT_NODE`), and a DOM
`Element` always has `nodeType` 1. -/
def traversedNodeType : Nat := Node_ELEMENT_NODE

/-- Source `isElementVisible` (domExtractor.ts:91): computed display and
visibility checks, then a positive-size check and a strict comparison of the
rect against the viewport inflated by `viewportExpansion` on every side. -/
def isElementVisible (args : BuildArgs) (style : Style) (rect : Rect) : Bool :=
  if style.display = "none" || style.visibility = "hidden" then false
  else
    decide (0 < rect.width) && decide (0 < rect.height) &&
    decide (rect.top < args.viewport.height + args.viewportExpansion) &&
    decide (-args.viewportExpansion < rect.bottom) &&
    decide (rect.left < args.viewport.width + args.viewportExpansion) &&
    decide (-args.viewportExpansion < rect.right)

/-- Source tag allowlist of `isElementInteractive`. -/
def interactiveTags : List String :=
  ["a", "button", "input", "select", "textarea", "option", "optgroup",
   "fieldset", "legend", "details", "summary"]

/-- Source event-handler attribute list of `isElementInteractive`. -/
def clickableAttributes : List String :=
  ["onclick", "onmousedown", "onmouseup", "onmousemove", "onmouseover", "onmouseout"]

/-- Source ARIA role allowlist of `isElementInteractive`. -/
def interactiveRoles : List String :=
  ["button", "link", "menuitem", "tab", "option"]

/-- Source `isElementInteractive` (domExtractor.ts:109): tag allowlist, then
presence of any pointer handler attribute, then a truthy `role` in the role
allowlist, then a truthy `tabindex` different from `"-1"`. -/
def isElementInteractive (tag : String) (attrs : List (String × String)) : Bool :=
  let tagName := jsToLower tag
  if strListHas interactiveTags tagName then true
  else if clickableAttributes.any (fun a => (lookupEq attrs a).isSome) then true
  else
    match lookupEq attrs "role" with
    | some role =>
      if role ≠ "" && strListHas interactiveRoles role then true
      else tabindexInteractive attrs
    | none => tabindexInteractive attrs
where
  /-- The final `tabindex` check of `isElementInteractive`. -/
  tabindexInteractive (attrs : List (String × String)) : Bool :=
    match lookupEq attrs "tabindex" with
    | some t => t ≠ "" && t ≠ "-1"
    | none => false

/-- One path segment of `getXPath` (domExtractor.ts:64): the lower-cased tag
with a 1-based ordinal suffix among preceding same-tag element siblings,
omitted when the ordinal is 1. -/
def xpathSegment (tag : String) (ordinal : Nat) : String :=
  jsToLower tag ++ (if 1 < ordinal then "[" ++ toString ordinal ++ "]" else "")

/-- Source `getXPath` (domExtractor.ts:53), phrased top-down: an element with
a non-empty id gets the absolute id reference; `document.body` gets
`/html/body`; otherwise the path is the ancestor chain prefix followed by this
element segment.  `parentPrefix` is what the bottom-up sibling-counting loop
of the source produces for the ancestors (see `childPrefixOf`). -/
def getXPathOf (idAttr : String) (isBody : Bool) (parentPrefix seg : String) : String :=
  if idAttr ≠ "" then "//*[@id=\"" ++ idAttr ++ "\"]"
  else if isBody then "/html/body"
  else parentPrefix ++ "/" ++ seg

/-- Ancestor-chain prefix that `getXPath` produces for the children of an
element: the upward walk of the source stops (inclusively) at the first
ancestor carrying an id, and otherwise continues through `body` and `html` to
the root. -/
def childPrefixOf (tag idAttr : String) (isBody : Bool) (parentPrefix seg : String) : String :=
  if idAttr ≠ "" then "/" ++ jsToLower tag ++ "[@id=\"" ++ idAttr ++ "\"]"
  else if isBody then "/html/body"
  else parentPrefix ++ "/" ++ seg

/-- The data recorded in the node map for one element node
(domExtractor.ts:282). -/
structure ElemData where
  tagName : String
  xpath : String
  attributes : List (String × String)
  text : String
  isVisible : Bool
  isInteractive : Bool
  isTopElement : Bool
  isInViewport : Bool
  shadowRoot : Bool
  highlightIndex : Option Nat
  elementIndex : Option Nat
  children : List String
  deriving DecidableEq, Repr

/-- An entry of the extractor node map: an element entry or a text entry
(domExtractor.ts:267). -/
inductive NodeData where
  | elementNode (d : ElemData)
  | textEntry (text : String) (isVisible : Bool)
  deriving DecidableEq, Repr

/-- The mutable state threaded through the traversal: the id counter, the two
independent index counters, and the node map in insertion order. -/
structure TravState where
  nodeIdCounter : Nat
  highlightCounter : Nat
  elementCounter : Nat
  nodeMap : List (String × NodeData)
  deriving DecidableEq, Repr

/-- Conditional assignment of the next value of a monotone counter: returns
the assigned index (if any) and the updated counter. -/
def assignIdx (cond : Bool) (counter : Nat) : Option Nat × Nat :=
  if cond then (some counter, counter + 1) else (none, counter)

mutual
/-- Source `traverseElement` (domExtractor.ts:226).  `isBody`/`isTop` record
whether this call is the root call on `document.body` (`parentId === null`);
`parentPrefix`/`seg` carry the structural-path context described at
`getXPathOf`.  Returns the node id and the updated traversal state. -/
def traverseElement (args : BuildArgs) (d : Dom) (isBody : Bool)
    (parentPrefix seg : String) (isTop : Bool) (st : TravState) : String × TravState :=
  match d with
  | .textNode _ => ("", st)
  | .elem tag attrs style rect children =>
    let nodeId := "node_" ++ toString st.nodeIdCounter
    let st1 : TravState := { st with nodeIdCounter := st.nodeIdCounter + 1 }
    let isVisible := isElementVisible args style rect
    let isInteractive := isElementInteractive tag attrs
    let idAttr := (lookupEq attrs "id").getD ""
    let xpath := getXPathOf idAttr isBody parentPrefix seg
    let textVal := jsTrim (DomList.textContentAll children)
    let hres := assignIdx (isVisible && isInteractive) st1.highlightCounter
    let currentHighlightIndex := hres.1
    let st2 : TravState := { st1 with highlightCounter := hres.2 }
    let eres := assignIdx
      (currentHighlightIndex.isSome || decide (traversedNodeType = Node_TEXT_NODE))
      st2.elementCounter
    let currentElementIndex := eres.1
    let st3 : TravState := { st2 with elementCounter := eres.2 }
    let kidPrefix := childPrefixOf tag idAttr isBody parentPrefix seg
    let cres := traverseChildren args children kidPrefix isVisible [] st3
    let d : ElemData :=
      { tagName := jsToLower tag
        xpath := xpath
        attributes := attrs
        text := textVal
        isVisible := isVisible
        isInteractive := isInteractive
        isTopElement := isTop
        isInViewport := isVisible
        shadowRoot := false
        highlightIndex := currentHighlightIndex
        elementIndex := currentElementIndex
        children := cres.1 }
    (nodeId, { cres.2 with nodeMap := cres.2.nodeMap ++ [(nodeId, NodeData.elementNode d)] })

/-- The child loop of `traverseElement` (domExtractor.ts:259): text children
with non-empty trimmed content become `TEXT_NODE` map entries inheriting the
parent visibility; element children are traversed recursively.  `prevTags`
accumulates the lower-cased tags of the element children already passed, which
determines the 1-based same-tag ordinal of each element child. -/
def traverseChildren (args : BuildArgs) (cs : DomList) (parentPrefix : String)
    (parentVisible : Bool) (prevTags : List String) (st : TravState) :
    List String × TravState :=
  match cs with
  | .nil => ([], st)
  | .cons c rest =>
    match c with
    | .textNode s =>
      let t := jsTrim s
      if t = "" then traverseChildren args rest parentPrefix parentVisible prevTags st
      else
        let textId := "text_" ++ toString st.nodeIdCounter
        let st1 : TravState :=
          { st with
            nodeIdCounter := st.nodeIdCounter + 1
            nodeMap := st.nodeMap ++ [(textId, NodeData.textEntry t parentVisible)] }
        let res := traverseChildren args rest parentPrefix parentVisible prevTags st1
        (textId :: res.1, res.2)
    | .elem ctag cattrs cstyle crect ccs =>
      let lowTag := jsToLower ctag
      let ordinal := 1 + prevTags.countP (fun t => decide (t = lowTag))
      let seg := xpathSegment ctag ordinal
      let r1 := traverseElement args (.elem ctag cattrs cstyle crect ccs) false
        parentPrefix seg false st
      let res := traverseChildren args rest parentPrefix parentVisible
        (prevTags ++ [lowTag]) r1.2
      (r1.1 :: res.1, res.2)
end

/-- Source `buildDomTreeOverlay` (domExtractor.ts:2): resets the counters and
the node map and starts the traversal at `document.body` (whose ancestor
prefix, should `body` carry an id, starts at `/html`).  Returns the root node
id and the final traversal state. -/
def buildDomTreeOverlay (args : BuildArgs) (body : Dom) : String × TravState :=
  traverseElement args body true "/html" "body" true
    { nodeIdCounter := 0, highlightCounter := 0, elementCounter := 0, nodeMap := [] }

/-- Modelled from the spec: `src/services/domService.ts` is absent from the
sources; per spec §3 the SelectorMap it derives from the extractor output maps
`highlightIndex → node` over exactly the nodes whose `highlightIndex` is
non-null. -/
def selectorMapOf (m : List (String × NodeData)) : List (Nat × ElemData) :=
  m.filterMap (fun p =>
    match p.2 with
    | NodeData.elementNode d =>
      match d.highlightIndex with
      | some h => some (h, d)
      | none => none
    | NodeData.textEntry _ _ => none)

/-- Modelled from the spec: the ElementMap derived by the absent
`src/services/domService.ts` maps `elementIndex → node` over exactly the nodes
whose `elementIndex` is non-null (spec §3). -/
def elementMapOf (m : List (String × NodeData)) : List (Nat × ElemData) :=
  m.filterMap (fun p =>
    match p.2 with
    | NodeData.elementNode d =>
      match d.elementIndex with
      | some e => some (e, d)
      | none => none
    | NodeData.textEntry _ _ => none)

/-- The multiset of `highlightIndex` values assigned in a node map, in map
order. -/
def highlightValues (m : List (String × NodeData)) : List Nat :=
  m.filterMap (fun p =>
    match p.2 with
    | NodeData.elementNode d => d.highlightIndex
    | NodeData.textEntry _ _ => none)

/-- The multiset of `elementIndex` values assigned in a node map, in map
order. -/
def elementValues (m : List (String × NodeData)) : List Nat :=
  m.filterMap (fun p =>
    match p.2 with
    | NodeData.elementNode d => d.elementIndex
    | NodeData.textEntry _ _ => none)

/-- The element entry stored under a node id, if any. -/
def elemDataOf (m : List (String × NodeData)) (k : String) : Option ElemData :=
  match lookupEq m k with
  | some (NodeData.elementNode d) => some d
  | _ => none

/-! ## Selector synthesis (src/services/browserContext.ts)

The captured element descriptor consumed by the BrowserContext methods.  The
class `DOMElementNode` itself lives in `src/types/dom.ts`, which is absent
from the sources; the fields below are the ones `browserContext.ts` reads
from it (`tagName`, `xpath`, `attributes`, `highlightIndex`), typed as the
spec data model describes them (§3). -/

/-- Captured element descriptor (see section comment above). -/
structure DOMElementNode where
  tagName : String
  xpath : String
  attributes : List (String × String)
  highlightIndex : Option Int
  deriving DecidableEq, Repr

/-- Source `_convert_simple_xpath_to_css_selector` (browserContext.ts:307):
strip every occurrence of `/html/body/` when the path starts with it, then
globally rewrite `/` to the child combinator. -/
def convert_simple_xpath_to_css_selector (xpath : String) : String :=
  if jsStartsWith xpath "/html/body/" then
    jsReplaceAll (jsReplaceAll xpath "/html/body/" "") "/" " > "
  else jsReplaceAll xpath "/" " > "

/-- One character of the conservative class-name pattern body
`[a-zA-Z0-9_-]`. -/
def isValidClassChar (c : Char) : Bool :=
  c.isAlpha || c.isDigit || c = '_' || c = '-'

/-- Source class-name test `/^[a-zA-Z_][a-zA-Z0-9_-]*$/`
(browserContext.ts:219). -/
def isValidClassName (s : String) : Bool :=
  match s.data with
  | [] => false
  | c :: rest => (c.isAlpha || c = '_') && rest.all isValidClassChar

/-- The class loop of `_enhanced_css_selector_for_element`
(browserContext.ts:222): walk the space-separated tokens, skip blank tokens,
and append `.token` for each token accepted by the pattern. -/
def classFilterFold (css : String) (tokens : List String) : String :=
  tokens.foldl
    (fun acc token =>
      if jsTrim token = "" then acc
      else if isValidClassName token then acc ++ "." ++ token
      else acc)
    css

/-- Source `SAFE_ATTRIBUTES` set (browserContext.ts:238). -/
def SAFE_ATTRIBUTES : List String :=
  ["id", "name", "type", "placeholder", "aria-label", "aria-labelledby",
   "aria-describedby", "role", "for", "autocomplete", "required", "readonly",
   "alt", "title", "src", "href", "target"]

/-- Source dynamic attribute list added to the safe set when
`include_dynamic_attributes` is enabled (browserContext.ts:259). -/
def dynamic_attributes : List String :=
  ["data-id", "data-qa", "data-cy", "data-testid"]

/-- The safe-attribute set in effect for a given
`include_dynamic_attributes` flag. -/
def safeAttributesFor (flag : Bool) : List String :=
  SAFE_ATTRIBUTES ++ (if flag then dynamic_attributes else [])

/-- Source special-value test `/["'<>`\n\r\t]/.test(value)`
(browserContext.ts:289). -/
def hasSpecialValueChar (v : String) : Bool :=
  v.data.any (fun c =>
    c = '"' || c = Char.ofNat 39 || c = '<' || c = '>' || c = Char.ofNat 96 ||
    c = '\n' || c = '\r' || c = '\t')

/-- JavaScript `value.replace(/\s+/g, " ")`: collapse every whitespace run to
a single space. -/
def collapseWs (v : String) : String :=
  (v.data.foldl
    (fun (acc : String × Bool) c =>
      if isJsSpace c then (if acc.2 then acc else (acc.1.push ' ', true))
      else (acc.1.push c, false))
    ("", false)).1

/-- The attribute loop of `_enhanced_css_selector_for_element`
(browserContext.ts:269): skip `class`, blank names and names outside the safe
set; escape `:` in names; emit a presence filter for empty values, a
whitespace-collapsed quote-escaped contains filter for values holding
quote/angle/backtick/newline/tab characters, and an exact filter otherwise. -/
def attrFilterFold (flag : Bool) (css : String) (attrs : List (String × String)) : String :=
  attrs.foldl
    (fun acc kv =>
      let attrName := kv.1
      let value := kv.2
      if attrName = "class" then acc
      else if jsTrim attrName = "" then acc
      else if ¬ strListHas (safeAttributesFor flag) attrName then acc
      else
        let safe_attribute := jsReplaceAll attrName ":" "\\:"
        if value = "" then acc ++ "[" ++ safe_attribute ++ "]"
        else if hasSpecialValueChar value then
          let collapsed_value := jsTrim (collapseWs value)
          let safe_value := jsReplaceAll collapsed_value "\"" "\\\""
          acc ++ "[" ++ safe_attribute ++ "*=\"" ++ safe_value ++ "\"]"
        else acc ++ "[" ++ safe_attribute ++ "=\"" ++ value ++ "\"]")
    css

/-- The try-block of `_enhanced_css_selector_for_element`
(browserContext.ts:206-299), in an `Option` modelling the exception channel:
base selector from the XPath, then the class filters (gated, as in the
source, on a truthy `class` attribute AND `include_dynamic_attributes`), then
the safe-attribute filters.  Every step of the body is total on the typed
descriptor, so the body always returns `some`. -/
def enhanced_css_selector_body (element : DOMElementNode)
    (include_dynamic_attributes : Bool) : Option String :=
  let base := convert_simple_xpath_to_css_selector element.xpath
  let withClasses :=
    match lookupEq element.attributes "class" with
    | some c =>
      if c ≠ "" && include_dynamic_attributes then
        classFilterFold base (jsSplitSpace c)
      else base
    | none => base
  some (attrFilterFold include_dynamic_attributes withClasses element.attributes)

/-- A single-quote character as a string (used by the fallback selector). -/
def singleQuote : String := String.mk [Char.ofNat 39]

/-- JavaScript template rendering of a nullable number
(`${element.highlightIndex}`). -/
def optIntToJS : Option Int → String
  | some n => toString n
  | none => "null"

/-- The catch-branch fallback of `_enhanced_css_selector_for_element`
(browserContext.ts:301): a coarse tag plus highlight-index selector; a falsy
tag name falls back to `*`. -/
def fallbackSelector (element : DOMElementNode) : String :=
  (if element.tagName = "" then "*" else element.tagName) ++
    "[highlight_index=" ++ singleQuote ++ optIntToJS element.highlightIndex ++
    singleQuote ++ "]"

/-- Source `_enhanced_css_selector_for_element` (browserContext.ts:202): the
try-block body, with any thrown exception replaced by the fallback
selector. -/
def enhanced_css_selector_for_element (element : DOMElementNode)
    (include_dynamic_attributes : Bool) : String :=
  match enhanced_css_selector_body element include_dynamic_attributes with
  | some s => s
  | none => fallbackSelector element

/-! ## State refresh and actions (src/services/browserContext.ts) -/

/-- The `BrowserState` record (browserContext.ts:6).  The tab field is
optional and never set by `updateState`, so it is elided. -/
structure BrowserStateM where
  elementTree : DOMElementNode
  selectorMap : List (Int × DOMElementNode)
  elementMap : List (Int × DOMElementNode)
  url : String
  title : String
  screenshot : String
  pixels_above : Int
  pixels_below : Int
  deriving DecidableEq, Repr

/-- The payload returned by `DomService.getClickableElements`, as
`updateState` consumes it (browserContext.ts:54). -/
structure DomContentM where
  elementTree : DOMElementNode
  selectorMap : List (Int × DOMElementNode)
  elementMap : List (Int × DOMElementNode)
  deriving DecidableEq, Repr

/-- Source `updateState` (browserContext.ts:50).  The awaited collaborator
calls of the try-block are modelled as `Except` outcomes in source order:
`removeHighlights`, `getClickableElements` (the snapshot traversal),
`takeScreenshot`, `getScrollInfo`, and `page.title`; `page.url()` cannot
throw.  The first component of the result is what the call returns or
throws; the second is the value of `this.currentState` after the call, with
`prior` its value before the call. -/
def updateState (prior : Option BrowserStateM)
    (removeRes : Except String Unit)
    (contentRes : Except String DomContentM)
    (shotRes : Except String String)
    (scrollRes : Except String (Int × Int))
    (titleRes : Except String String)
    (url : String) : Except String BrowserStateM × Option BrowserStateM :=
  let attempt : Except String BrowserStateM := do
    let _ ← removeRes
    let content ← contentRes
    let screenshot ← shotRes
    let scroll ← scrollRes
    let title ← titleRes
    pure
      { elementTree := content.elementTree
        selectorMap := content.selectorMap
        elementMap := content.elementMap
        url := url
        title := title
        screenshot := screenshot
        pixels_above := scroll.1
        pixels_below := scroll.2 }
  match attempt with
  | Except.ok s => (Except.ok s, some s)
  | Except.error e =>
    match prior with
    | some p => (Except.ok p, some p)
    | none => (Except.error e, none)

/-- JavaScript rendering `${e}` of the `Error` thrown when
`get_locate_element` returns null (`new Error("Element not found")`). -/
def elementNotFoundRendered : String := "Error: Element not found"

/-- Source `_input_text_element_node` (browserContext.ts:318).  `locateRes`
models the `get_locate_element` outcome (null or a handle), `fillRes` the
`fill` call on the located handle.  Any failure inside the try-block is
caught and rethrown as the index-tagged message of line 331. -/
def input_text_element_node (element_node : DOMElementNode)
    (locateRes : Option Unit) (fillRes : Except String Unit) : Except String Unit :=
  let body : Except String Unit := do
    match locateRes with
    | none => Except.error elementNotFoundRendered
    | some _ => fillRes
  match body with
  | Except.ok _ => Except.ok ()
  | Except.error _ =>
    Except.error ("Failed to input text into index " ++
      optIntToJS element_node.highlightIndex)

/-- Source `_click_element_node` (browserContext.ts:338).  `locateRes` models
the `get_locate_element` outcome, `nativeClickRes` the
`element_handle.click({timeout: 1500})` call, and `jsClickRes` the
programmatic-dispatch fallback (`page.evaluate` of `el.click()`) attempted by
`perform_click` when the native click throws.  Whatever error escapes the
try-block is rethrown with the `Failed to click element: ` prefix and the
rendered cause, which does not mention the element index. -/
def click_element_node (element_node : DOMElementNode)
    (locateRes : Option Unit) (nativeClickRes jsClickRes : Except String Unit) :
    Except String Unit :=
  let body : Except String Unit := do
    match locateRes with
    | none => Except.error elementNotFoundRendered
    | some _ =>
      match nativeClickRes with
      | Except.ok _ => Except.ok ()
      | Except.error _ => jsClickRes
  match body with
  | Except.ok _ => Except.ok ()
  | Except.error e => Except.error ("Failed to click element: " ++ e)

/-! ## LLM selection (src/services/llmSelector.ts)

`parseLLMResponse` destructures the raw result of `JSON.parse` on an
untrusted LLM reply, so its `confidence` field can be any JSON value, not
just a number.  The model therefore covers the JSON scalars (number, string,
boolean, null) for that field, and models JavaScript numbers with their
special values: `Math.min`/`Math.max` propagate NaN, and the implicit
ToNumber coercion of `Math.min(1, confidence)` turns a non-numeric string
into NaN. -/

/-- A JavaScript number as `Math.min`/`Math.max` see it: a finite value, an
infinity, or NaN. -/
inductive JsNumber where
  | num (q : ℚ)
  | inf
  | negInf
  | nan
  deriving DecidableEq, Repr

/-- JavaScript `Math.min` on two numbers: NaN-propagating, infinity-aware. -/
def JsNumber.jsMin : JsNumber → JsNumber → JsNumber
  | nan, _ => nan
  | _, nan => nan
  | num a, num b => num (min a b)
  | inf, y => y
  | x, inf => x
  | negInf, _ => negInf
  | _, negInf => negInf

/-- JavaScript `Math.max` on two numbers: NaN-propagating, infinity-aware. -/
def JsNumber.jsMax : JsNumber → JsNumber → JsNumber
  | nan, _ => nan
  | _, nan => nan
  | num a, num b => num (max a b)
  | inf, _ => inf
  | _, inf => inf
  | negInf, y => y
  | x, negInf => x

/-- Spec-side predicate for the confidence claim: the number lies in the
closed unit interval.  NaN and the infinities compare false, as every
JavaScript comparison with NaN does. -/
def JsNumber.withinUnit : JsNumber → Bool
  | num q => decide (0 ≤ q ∧ q ≤ 1)
  | _ => false

/-- Value of a decimal digit character. -/
def digitVal (c : Char) : Nat := c.toNat - 48

/-- A run of decimal digits as a natural number. -/
def digitsToNat (l : List Char) : Nat :=
  l.foldl (fun acc c => acc * 10 + digitVal c) 0

/-- Hexadecimal digit test. -/
def isHexDigit (c : Char) : Bool :=
  c.isDigit || (decide ('a' ≤ c) && decide (c ≤ 'f')) ||
    (decide ('A' ≤ c) && decide (c ≤ 'F'))

/-- Value of a hexadecimal digit character. -/
def hexDigitVal (c : Char) : Nat :=
  if c.isDigit then c.toNat - 48
  else if decide ('a' ≤ c) && decide (c ≤ 'f') then c.toNat - 87
  else c.toNat - 55

/-- Octal digit test. -/
def isOctDigit (c : Char) : Bool := decide ('0' ≤ c) && decide (c ≤ '7')

/-- Binary digit test. -/
def isBinDigit (c : Char) : Bool := c = '0' || c = '1'

/-- An unsigned radix-prefixed integer body (what follows `0x`, `0o` or
`0b`): JavaScript accepts a non-empty run of radix digits and nothing
else. -/
def radixBody (pred : Char → Bool) (val : Char → Nat) (radix : Nat)
    (l : List Char) : JsNumber :=
  if l.isEmpty then JsNumber.nan
  else if l.all pred then
    JsNumber.num ((l.foldl (fun acc c => acc * radix + val c) 0 : Nat) : ℚ)
  else JsNumber.nan

/-- The optional exponent tail of a decimal literal; any trailing junk makes
the whole literal NaN. -/
def parseExponentTail (mantissa : ℚ) (l : List Char) : Option ℚ :=
  match l with
  | [] => some mantissa
  | c :: rest =>
    if c = 'e' || c = 'E' then
      let signed : Bool × List Char :=
        match rest with
        | '+' :: r => (true, r)
        | '-' :: r => (false, r)
        | r => (true, r)
      let digitsPart := signed.2.takeWhile Char.isDigit
      if digitsPart.isEmpty then none
      else if digitsPart.length ≠ signed.2.length then none
      else if signed.1 then some (mantissa * (10 : ℚ) ^ digitsToNat digitsPart)
      else some (mantissa / (10 : ℚ) ^ digitsToNat digitsPart)
    else none

/-- An unsigned decimal literal body: digits with an optional fraction and
exponent (`Digits [. Digits] [Exponent]` or `. Digits [Exponent]`). -/
def parseDecimalBody (l : List Char) : Option ℚ :=
  let intPart := l.takeWhile Char.isDigit
  let rest1 := l.drop intPart.length
  match rest1 with
  | '.' :: rest2 =>
    let fracPart := rest2.takeWhile Char.isDigit
    let rest3 := rest2.drop fracPart.length
    if intPart.isEmpty && fracPart.isEmpty then none
    else
      parseExponentTail
        ((digitsToNat intPart : ℚ) +
          (digitsToNat fracPart : ℚ) / (10 : ℚ) ^ fracPart.length)
        rest3
  | _ =>
    if intPart.isEmpty then none
    else parseExponentTail ((digitsToNat intPart : ℚ)) rest1

/-- An optionally signed decimal or `Infinity` body (the sign of a
JavaScript string numeric literal never precedes a radix prefix). -/
def signedBody (positive : Bool) (l : List Char) : JsNumber :=
  if l = "Infinity".data then
    if positive then JsNumber.inf else JsNumber.negInf
  else
    match parseDecimalBody l with
    | some q => JsNumber.num (if positive then q else -q)
    | none => JsNumber.nan

/-- JavaScript `Number(string)`, the ToNumber coercion on strings: trims
whitespace, reads the empty string as 0, accepts an optionally signed
decimal or `Infinity` literal or an unsigned radix-prefixed integer, and
yields NaN for anything else. -/
def jsStringToNumber (s : String) : JsNumber :=
  match trimChars s.data with
  | [] => JsNumber.num 0
  | '+' :: rest => signedBody true rest
  | '-' :: rest => signedBody false rest
  | '0' :: 'x' :: rest => radixBody isHexDigit hexDigitVal 16 rest
  | '0' :: 'X' :: rest => radixBody isHexDigit hexDigitVal 16 rest
  | '0' :: 'o' :: rest => radixBody isOctDigit digitVal 8 rest
  | '0' :: 'O' :: rest => radixBody isOctDigit digitVal 8 rest
  | '0' :: 'b' :: rest => radixBody isBinDigit digitVal 2 rest
  | '0' :: 'B' :: rest => radixBody isBinDigit digitVal 2 rest
  | l => signedBody true l

/-- A scalar JSON value, as `JSON.parse` can produce for the `confidence`
field of the reply (composite values, whose ToNumber goes through
ToPrimitive, are not exercised by the claims). -/
inductive JsonConf where
  | num (q : ℚ)
  | str (s : String)
  | jbool (b : Bool)
  | jnull
  deriving DecidableEq, Repr

/-- JavaScript truthiness of a scalar JSON value (the `||` test of
`parsed.confidence || 0`). -/
def JsonConf.truthy : JsonConf → Bool
  | num q => decide (q ≠ 0)
  | str s => decide (s ≠ "")
  | jbool b => b
  | jnull => false

/-- JavaScript ToNumber on a scalar JSON value: the implicit coercion
performed by `Math.min(1, confidence)`. -/
def JsonConf.toNumber : JsonConf → JsNumber
  | num q => JsNumber.num q
  | str s => jsStringToNumber s
  | jbool true => JsNumber.num 1
  | jbool false => JsNumber.num 0
  | jnull => JsNumber.num 0

/-- The JSON payload shape `parseLLMResponse` destructures after
`JSON.parse`: a nullable-or-absent index, an optional `confidence` that can
be any JSON scalar (the reply is untrusted), and an optional reasoning
string. -/
structure ParsedResponseM where
  selectedIndex : Option Int
  confidence : Option JsonConf
  reasoning : Option String
  deriving DecidableEq, Repr

/-- The `ElementSelectionResult` interface (llmSelector.ts:12); the
confidence is a JavaScript number, so it can be NaN. -/
structure ElementSelectionResultM where
  selectedElement : Option DOMElementNode
  selectedIndex : Option Int
  confidence : JsNumber
  reasoning : String
  deriving DecidableEq, Repr

/-- Source `parseLLMResponse` (llmSelector.ts:228).  The markdown stripping
plus `JSON.parse` stage is modelled by the `parsed` argument (`none` when
parsing threw and the catch-branch runs).  `parsed.confidence || 0` keeps a
truthy confidence value as is (whatever JSON scalar it may be) and replaces
a falsy or absent one by the number 0; the success path then computes
`Math.max(0, Math.min(1, confidence))`, whose ToNumber coercion turns a
non-numeric truthy value into NaN, which the clamp propagates.  Every
failure path reports confidence 0. -/
def parseLLMResponse (parsed : Option ParsedResponseM)
    (selectorMap : List (Int × DOMElementNode)) : ElementSelectionResultM :=
  match parsed with
  | none =>
    { selectedElement := none, selectedIndex := none,
      confidence := JsNumber.num 0,
      reasoning := "Failed to parse LLM response" }
  | some p =>
    let confidence : JsonConf :=
      match p.confidence with
      | some v => if v.truthy then v else JsonConf.num 0
      | none => JsonConf.num 0
    let reasoning := p.reasoning.getD ""
    match p.selectedIndex with
    | none =>
      { selectedElement := none, selectedIndex := none,
        confidence := JsNumber.num 0,
        reasoning := if reasoning = "" then "No element selected" else reasoning }
    | some selectedIndex =>
      match lookupEq selectorMap selectedIndex with
      | none =>
        { selectedElement := none, selectedIndex := none,
          confidence := JsNumber.num 0,
          reasoning := "Element with index " ++ toString selectedIndex ++
            " not found in selector map" }
      | some selectedElement =>
        { selectedElement := some selectedElement
          selectedIndex := some selectedIndex
          confidence := JsNumber.jsMax (JsNumber.num 0)
            (JsNumber.jsMin (JsNumber.num 1) confidence.toNumber)
          reasoning := reasoning }

/-- The element-less result returned when the retry loop of `selectElement`
exhausts all attempts without a selection (llmSelector.ts:77). -/
def failedAllResult : ElementSelectionResultM :=
  { selectedElement := none, selectedIndex := none,
    confidence := JsNumber.num 0,
    reasoning := "Failed to select element after all attempts" }

/-- Source `selectElement` retry loop (llmSelector.ts:56).  Each entry of
`attempts` is the outcome of one `llm.invoke` round: a thrown invocation
error, or the parse stage input for `parseLLMResponse`.  A parsed result is
returned as soon as it carries a selected element; an invocation error on the
last attempt is rethrown wrapped; otherwise the loop continues, and falling
out of the loop returns the element-less failure result. -/
def selectElement (selectorMap : List (Int × DOMElementNode)) (maxRetries : Nat) :
    List (Except String (Option ParsedResponseM)) → Except String ElementSelectionResultM
  | [] => Except.ok failedAllResult
  | a :: rest =>
    match a with
    | Except.ok resp =>
      let result := parseLLMResponse resp selectorMap
      if result.selectedElement.isSome then Except.ok result
      else selectElement selectorMap maxRetries rest
    | Except.error e =>
      if rest.isEmpty then
        Except.error ("Failed to select element after " ++ toString maxRetries ++
          " attempts: " ++ e)
      else selectElement selectorMap maxRetries rest

/-! ## Derived predicates and concrete scenario inputs -/

/-- Pointwise facts recorded by construction on every node-map entry: an
element entry has an `elementIndex` exactly when it has a `highlightIndex`,
and its `isInViewport` flag is its `isVisible` flag. -/
def entryOk : String × NodeData → Prop
  | (_, NodeData.elementNode d) =>
    d.elementIndex.isSome = d.highlightIndex.isSome ∧ d.isInViewport = d.isVisible
  | (_, NodeData.textEntry _ _) => True

/-- Traversal postcondition relating the state before and after one
traversal call: the node map grows by a suffix `Δ` whose assigned highlight
and element index values are exactly the half-open counter ranges consumed by
the call, and every new entry satisfies `entryOk`. -/
def travOk (st stFin : TravState) : Prop :=
  ∃ Δ, stFin.nodeMap = st.nodeMap ++ Δ ∧
    st.highlightCounter ≤ stFin.highlightCounter ∧
    st.elementCounter ≤ stFin.elementCounter ∧
    List.Perm (highlightValues Δ)
      (List.range' st.highlightCounter (stFin.highlightCounter - st.highlightCounter)) ∧
    List.Perm (elementValues Δ)
      (List.range' st.elementCounter (stFin.elementCounter - st.elementCounter)) ∧
    (∀ p ∈ Δ, entryOk p)

/-- Spec-side notion of rectangle intersection for the visibility claim: two
axis-aligned boxes (given by left/right/top/bottom bounds) intersect when
their interiors share a point, that is, when they overlap in a region of
positive area. -/
def openRectsIntersect (l1 r1 t1 b1 l2 r2 t2 b2 : ℚ) : Prop :=
  ∃ x y : ℚ, l1 < x ∧ x < r1 ∧ l2 < x ∧ x < r2 ∧ t1 < y ∧ y < b1 ∧ t2 < y ∧ y < b2

/-- The class tokens that the class loop of
`_enhanced_css_selector_for_element` keeps: non-blank tokens accepted by the
conservative class-name pattern. -/
def keptClassToken (t : String) : Bool :=
  if jsTrim t = "" then false else isValidClassName t

/-- Concatenation of a list of strings. -/
def joinAll : List String → String
  | [] => ""
  | s :: rest => s ++ joinAll rest

/-- A computed style under which nothing is hidden. -/
def plainStyle : Style := ⟨"block", "visible"⟩

/-- A bounding rect comfortably inside the scenario viewport. -/
def plainRect : Rect := ⟨0, 0, 100, 50⟩

/-- Snapshot arguments of the scenario document: a 1280 by 720 viewport with
no expansion margin. -/
def scenarioArgs : BuildArgs := ⟨⟨1280, 720⟩, 0⟩

/-- The spec §8 scenario document
`<body><h1 id="t">Hello</h1><button onclick="x()">Go</button></body>`, with
both elements visible. -/
def scenarioDoc : Dom :=
  Dom.elem "BODY" [] plainStyle plainRect (DomList.cons
    (Dom.elem "H1" [("id", "t")] plainStyle plainRect
      (DomList.cons (Dom.textNode "Hello") DomList.nil))
    (DomList.cons
      (Dom.elem "BUTTON" [("onclick", "x()")] plainStyle plainRect
        (DomList.cons (Dom.textNode "Go") DomList.nil))
      DomList.nil))

/-- The node map produced by snapshotting the scenario document.  Traversal
order gives the ids `node_0` (body), `node_1` (h1), `text_2` (Hello),
`node_3` (button), `text_4` (Go). -/
def scenarioMap : List (String × NodeData) :=
  (buildDomTreeOverlay scenarioArgs scenarioDoc).2.nodeMap

/-- The element entry the traversal records for the scenario button. -/
def scenarioButtonData : ElemData :=
  { tagName := "button", xpath := "/html/body/button",
    attributes := [("onclick", "x()")], text := "Go", isVisible := true,
    isInteractive := true, isTopElement := false, isInViewport := true,
    shadowRoot := false, highlightIndex := some 0, elementIndex := some 0,
    children := ["text_4"] }

/-- The element entry the traversal records for the scenario h1. -/
def scenarioH1Data : ElemData :=
  { tagName := "h1", xpath := "//*[@id=\"t\"]", attributes := [("id", "t")],
    text := "Hello", isVisible := true, isInteractive := false,
    isTopElement := false, isInViewport := true, shadowRoot := false,
    highlightIndex := none, elementIndex := none, children := ["text_2"] }

/-! ## Helper lemmas -/

/-- A character list is a prefix of itself. -/
theorem isPrefixOf_self_char (l : List Char) : l.isPrefixOf l = true := by
  induction l with
  | nil => rfl
  | cons x xs ih => simp [List.isPrefixOf, ih]

/-- A character list is a prefix of itself followed by anything. -/
theorem isPrefixOf_append_char (a b : List Char) : a.isPrefixOf (a ++ b) = true := by
  induction a with
  | nil => simp [List.isPrefixOf]
  | cons x xs ih => simp [List.isPrefixOf, ih]

/-- A character list occurs inside anything followed by it. -/
theorem listContains_append_self (a b : List Char) : listContains (a ++ b) b = true := by
  induction a with
  | nil =>
    unfold listContains
    simp [isPrefixOf_self_char b]
  | cons x xs ih =>
    unfold listContains
    simp [ih]

/-- A string contains any of its own suffixes. -/
theorem strContains_append_self (a b : String) : strContains (a ++ b) b = true := by
  unfold strContains
  rw [String.data_append]
  exact listContains_append_self a.data b.data

/-- A string starts with any of its own prefixes. -/
theorem jsStartsWith_append (a b : String) : jsStartsWith (a ++ b) a = true := by
  unfold jsStartsWith
  rw [String.data_append]
  exact isPrefixOf_append_char a.data b.data

/-- Unfolding equation for the class loop. -/
theorem classFilterFold_cons (css t : String) (ts : List String) :
    classFilterFold css (t :: ts) =
      classFilterFold
        (if jsTrim t = "" then css
         else if isValidClassName t then css ++ "." ++ t else css) ts := rfl

/-- The class loop appends exactly the kept tokens, in order, as `.token`
filters. -/
theorem classFilterFold_filter (tokens : List String) (css : String) :
    classFilterFold css tokens =
      css ++ joinAll ((tokens.filter keptClassToken).map (fun t => "." ++ t)) := by
  induction tokens generalizing css with
  | nil => simp [classFilterFold, joinAll, String.append_empty]
  | cons t ts ih =>
    rw [classFilterFold_cons]
    by_cases h1 : jsTrim t = ""
    · rw [if_pos h1, ih]
      have hk : keptClassToken t = false := by simp [keptClassToken, h1]
      simp [List.filter_cons, hk]
    · by_cases h2 : isValidClassName t
      · rw [if_neg h1, if_pos h2, ih]
        have hk : keptClassToken t = true := by simp [keptClassToken, h1, h2]
        simp [List.filter_cons, hk, joinAll, String.append_assoc]
      · rw [if_neg h1, if_neg h2, ih]
        have hk : keptClassToken t = false := by simp [keptClassToken, h1, h2]
        simp [List.filter_cons, hk]

/-! ## Claims -/

/-- C4: for every element descriptor and every value of the
`includeDynamicAttributes` flag, `_enhanced_css_selector_for_element` always
returns a selector string: the successful try-block value when the body does
not throw (which, on the typed descriptor, it never does), and the coarse
`tagName[highlight_index=...]` fallback on any internal exception. -/
theorem c4_selector_total (element : DOMElementNode) (flag : Bool) :
    (∃ s, enhanced_css_selector_body element flag = some s ∧
      enhanced_css_selector_for_element element flag = s) ∨
    enhanced_css_selector_for_element element flag = fallbackSelector element :=
  Or.inl ⟨attrFilterFold flag
    (match lookupEq element.attributes "class" with
     | some c =>
       if c ≠ "" && flag then
         classFilterFold (convert_simple_xpath_to_css_selector element.xpath) (jsSplitSpace c)
       else convert_simple_xpath_to_css_selector element.xpath
     | none => convert_simple_xpath_to_css_selector element.xpath)
    element.attributes, rfl, rfl⟩

/-- C5 (amended): class filters are only appended when
`includeDynamicAttributes` is true (the source gates the whole class block on
that flag), and the class value is split on single space characters, not on
general whitespace; with the flag enabled the selector appends `.token` for
exactly the non-blank space-separated tokens matching
`^[a-zA-Z_][a-zA-Z0-9_-]*$`, in order, silently skipping the rest. -/
theorem c5_class_filter (element : DOMElementNode) (c : String)
    (h : lookupEq element.attributes "class" = some c) :
    enhanced_css_selector_for_element element true =
      attrFilterFold true
        (convert_simple_xpath_to_css_selector element.xpath ++
          joinAll (((jsSplitSpace c).filter keptClassToken).map (fun t => "." ++ t)))
        element.attributes := by
  unfold enhanced_css_selector_for_element enhanced_css_selector_body
  rw [h]
  by_cases hc : c = ""
  · subst hc
    simp [jsSplitSpace, splitChar, keptClassToken, jsTrim, trimChars, joinAll,
      String.append_empty]
  · have hcc : (c ≠ "" && true) = true := by simp [hc]
    simp only [hcc, if_pos, classFilterFold_filter]

/-- C5 counterexample: the claim asserts class handling for every node with a
non-empty class attribute and splitting on whitespace.  With
`includeDynamicAttributes = false` a `class="btn"` node yields the bare
selector `div` (no `.btn` filter), and with the flag enabled a tab-separated
`class="btn\tfoo"` yields `div` as well (the claim, splitting on whitespace,
demands `.btn.foo`), so the claim as stated is false. -/
theorem c5_class_filter_counterexample :
    enhanced_css_selector_for_element
      ⟨"div", "/html/body/div", [("class", "btn")], some 0⟩ false = "div" ∧
    enhanced_css_selector_for_element
      ⟨"div", "/html/body/div", [("class", "btn\tfoo")], some 0⟩ true = "div" ∧
    ("div" : String) ≠ "div.btn" ∧ ("div" : String) ≠ "div.btn.foo" :=
  ⟨rfl, rfl, by decide, by decide⟩

/-- C5 witness: on the spec §8 class scenario `"btn btn--primary 123invalid"`
with dynamic attributes enabled, the synthesized selector is exactly
`div.btn.btn--primary` — it includes `.btn.btn--primary` and excludes the
token starting with a digit. -/
theorem c5_class_filter_witness :
    enhanced_css_selector_for_element
      ⟨"div", "/html/body/div", [("class", "btn btn--primary 123invalid")], some 0⟩ true =
      "div.btn.btn--primary" := by
  rw [c5_class_filter
    ⟨"div", "/html/body/div", [("class", "btn btn--primary 123invalid")], some 0⟩
    "btn btn--primary 123invalid" rfl]
  rfl

/-- C7 (amended): a fill failure is reported as
`Failed to input text into index <highlightIndex>` and therefore always
carries the index of the element being acted upon; a click failure (after its
single programmatic-dispatch fallback) is reported as
`Failed to click element: <cause>`, which carries the rendered cause but not
the element index. -/
theorem c7_fault_messages :
    (∀ (element_node : DOMElementNode) (locateRes : Option Unit)
        (fillRes : Except String Unit) (e : String),
        input_text_element_node element_node locateRes fillRes = Except.error e →
        strContains e (optIntToJS element_node.highlightIndex) = true) ∧
    (∀ (element_node : DOMElementNode) (locateRes : Option Unit)
        (nativeClickRes jsClickRes : Except String Unit) (e : String),
        click_element_node element_node locateRes nativeClickRes jsClickRes =
          Except.error e →
        jsStartsWith e "Failed to click element: " = true) := by
  constructor
  · intro element_node locateRes fillRes e h
    have he : e = "Failed to input text into index " ++ optIntToJS element_node.highlightIndex := by
      cases locateRes with
      | none => simpa [input_text_element_node] using h.symm
      | some u =>
        cases fillRes with
        | ok v => simp [input_text_element_node] at h
        | error e2 => simpa [input_text_element_node] using h.symm
    rw [he]
    exact strContains_append_self _ _
  · intro element_node locateRes nativeClickRes jsClickRes e h
    have he : ∃ c, e = "Failed to click element: " ++ c := by
      cases locateRes with
      | none => exact ⟨elementNotFoundRendered, by simpa [click_element_node] using h.symm⟩
      | some u =>
        cases nativeClickRes with
        | ok v => simp [click_element_node] at h
        | error e2 =>
          cases jsClickRes with
          | ok v => simp [click_element_node] at h
          | error e3 => exact ⟨e3, by simpa [click_element_node] using h.symm⟩
    obtain ⟨c, rfl⟩ := he
    exact jsStartsWith_append _ _

/-- C7 counterexample: the claim requires every surfaced click failure to
include the original element index.  Acting on a node with
`highlightIndex = 7` whose relocation fails, the surfaced message is
`Failed to click element: Error: Element not found`, which does not contain
the index rendering `7` anywhere. -/
theorem c7_fault_messages_counterexample :
    click_element_node ⟨"button", "/html/body/button", [], some 7⟩ none
      (Except.ok ()) (Except.ok ()) =
      Except.error "Failed to click element: Error: Element not found" ∧
    strContains "Failed to click element: Error: Element not found"
      (optIntToJS (some 7)) = false :=
  ⟨rfl, rfl⟩

/-- C7 witness: a concrete failing fill on a node with `highlightIndex = 5`
produces a message containing the index rendering. -/
theorem c7_fault_messages_witness :
    strContains ("Failed to input text into index " ++ optIntToJS (some 5))
      (optIntToJS (some 5)) = true :=
  c7_fault_messages.1 ⟨"input", "/html/body/input", [], some 5⟩ none
    (Except.ok ()) _ rfl

/-- C6: whenever the try-block of `updateState` fails — in particular when
the snapshot traversal (`getClickableElements`) throws — the operation
returns the stale cached state if one exists, and only propagates the fault
when no prior state is cached; moreover a fault can escape `updateState` only
when no prior state exists. -/
theorem c6_stale_state (prior : Option BrowserStateM)
    (shotRes : Except String String) (scrollRes : Except String (Int × Int))
    (titleRes : Except String String) (url : String) (e : String) :
    (∀ p, prior = some p →
      (updateState prior (Except.ok ()) (Except.error e) shotRes scrollRes titleRes url).1 =
        Except.ok p) ∧
    (prior = none →
      (updateState prior (Except.ok ()) (Except.error e) shotRes scrollRes titleRes url).1 =
        Except.error e) ∧
    (∀ (removeRes : Except String Unit) (contentRes : Except String DomContentM)
        (e2 : String),
      (updateState prior removeRes contentRes shotRes scrollRes titleRes url).1 =
        Except.error e2 → prior = none) := by
  refine ⟨?_, ?_, ?_⟩
  · intro p hp
    subst hp
    rfl
  · intro hp
    subst hp
    rfl
  · intro removeRes contentRes e2 h
    cases prior with
    | none => rfl
    | some p =>
      exfalso
      cases removeRes <;> cases contentRes <;> cases shotRes <;>
        cases scrollRes <;> cases titleRes <;>
        simp [updateState, Bind.bind, Except.bind, Functor.map, Except.map, Pure.pure, Except.pure] at h

/-- A browser state used to exercise the stale-cache path of C6. -/
def staleState : BrowserStateM :=
  { elementTree := ⟨"body", "/html/body", [], none⟩, selectorMap := [],
    elementMap := [], url := "u", title := "t", screenshot := "",
    pixels_above := 0, pixels_below := 0 }

/-- C6 witness: with a cached prior state, a snapshot fault makes
`updateState` return the stale state. -/
theorem c6_stale_state_witness :
    (updateState (some staleState) (Except.ok ()) (Except.error "boom")
      (Except.ok "") (Except.ok (0, 0)) (Except.ok "t") "u").1 =
      Except.ok staleState :=
  (c6_stale_state (some staleState) (Except.ok "") (Except.ok (0, 0))
    (Except.ok "t") "u" "boom").1 staleState rfl

/-- C8: for a real viewport (positive dimensions, nonnegative expansion
margin), the visibility classifier returns true exactly when the computed
display is not `none`, the visibility is not `hidden`, the bounding box has
positive width and height, and the box intersects (with positive overlap)
the viewport rectangle inflated by the expansion margin on all four sides. -/
theorem c8_visibility (args : BuildArgs) (style : Style) (rect : Rect)
    (hw : 0 < args.viewport.width) (hh : 0 < args.viewport.height)
    (he : 0 ≤ args.viewportExpansion) :
    isElementVisible args style rect = true ↔
      (style.display ≠ "none" ∧ style.visibility ≠ "hidden" ∧
       0 < rect.width ∧ 0 < rect.height ∧
       openRectsIntersect (rect.left : ℚ) (rect.right : ℚ)
         (rect.top : ℚ) (rect.bottom : ℚ)
         (-(args.viewportExpansion : ℚ))
         ((args.viewport.width : ℚ) + (args.viewportExpansion : ℚ))
         (-(args.viewportExpansion : ℚ))
         ((args.viewport.height : ℚ) + (args.viewportExpansion : ℚ))) := by
  by_cases hd : style.display = "none"
  · simp [isElementVisible, hd]
  · by_cases hv : style.visibility = "hidden"
    · simp [isElementVisible, hd, hv]
    · have hiff : isElementVisible args style rect = true ↔
          (0 < rect.width ∧ 0 < rect.height ∧
           rect.top < args.viewport.height + args.viewportExpansion ∧
           -args.viewportExpansion < rect.bottom ∧
           rect.left < args.viewport.width + args.viewportExpansion ∧
           -args.viewportExpansion < rect.right) := by
        simp [isElementVisible, hd, hv, and_assoc]
      rw [hiff]
      simp only [Rect.right, Rect.bottom]
      constructor
      · rintro ⟨h1, h2, h3, h4, h5, h6⟩
        refine ⟨hd, hv, h1, h2, ?_⟩
        have q1 : (0 : ℚ) < (rect.width : ℚ) := by exact_mod_cast h1
        have q2 : (0 : ℚ) < (rect.height : ℚ) := by exact_mod_cast h2
        have q3 : (rect.top : ℚ) < (args.viewport.height : ℚ) + (args.viewportExpansion : ℚ) := by
          exact_mod_cast h3
        have q4 : -(args.viewportExpansion : ℚ) < (rect.top : ℚ) + (rect.height : ℚ) := by
          exact_mod_cast h4
        have q5 : (rect.left : ℚ) < (args.viewport.width : ℚ) + (args.viewportExpansion : ℚ) := by
          exact_mod_cast h5
        have q6 : -(args.viewportExpansion : ℚ) < (rect.left : ℚ) + (rect.width : ℚ) := by
          exact_mod_cast h6
        have qw : (0 : ℚ) < (args.viewport.width : ℚ) := by exact_mod_cast hw
        have qh : (0 : ℚ) < (args.viewport.height : ℚ) := by exact_mod_cast hh
        have qe : (0 : ℚ) ≤ (args.viewportExpansion : ℚ) := by exact_mod_cast he
        push_cast
        set L := (rect.left : ℚ)
        set T := (rect.top : ℚ)
        set W := (rect.width : ℚ)
        set H := (rect.height : ℚ)
        set VW := (args.viewport.width : ℚ)
        set VH := (args.viewport.height : ℚ)
        set E := (args.viewportExpansion : ℚ)
        have hxlt : max L (-E) < min (L + W) (VW + E) :=
          max_lt (lt_min (by linarith) (by linarith)) (lt_min (by linarith) (by linarith))
        have hylt : max T (-E) < min (T + H) (VH + E) :=
          max_lt (lt_min (by linarith) (by linarith)) (lt_min (by linarith) (by linarith))
        refine ⟨(max L (-E) + min (L + W) (VW + E)) / 2,
          (max T (-E) + min (T + H) (VH + E)) / 2, ?_, ?_, ?_, ?_, ?_, ?_, ?_, ?_⟩
        · have := le_max_left L (-E)
          linarith
        · have := min_le_left (L + W) (VW + E)
          linarith
        · have := le_max_right L (-E)
          linarith
        · have := min_le_right (L + W) (VW + E)
          linarith
        · have := le_max_left T (-E)
          linarith
        · have := min_le_left (T + H) (VH + E)
          linarith
        · have := le_max_right T (-E)
          linarith
        · have := min_le_right (T + H) (VH + E)
          linarith
      · rintro ⟨ical, _, h1, h2, x, y, p1, p2, p3, p4, p5, p6, p7, p8⟩
        refine ⟨h1, h2, ?_, ?_, ?_, ?_⟩
        · exact_mod_cast (by linarith :
            (rect.top : ℚ) < (args.viewport.height : ℚ) + (args.viewportExpansion : ℚ))
        · exact_mod_cast (by push_cast at p6 p7 ⊢; linarith :
            -(args.viewportExpansion : ℚ) < (rect.top : ℚ) + (rect.height : ℚ))
        · exact_mod_cast (by linarith :
            (rect.left : ℚ) < (args.viewport.width : ℚ) + (args.viewportExpansion : ℚ))
        · exact_mod_cast (by push_cast at p2 p3 ⊢; linarith :
            -(args.viewportExpansion : ℚ) < (rect.left : ℚ) + (rect.width : ℚ))

/-- C8 witness: the fully visible scenario rect against the scenario
viewport. -/
theorem c8_visibility_witness :
    plainStyle.display ≠ "none" ∧ plainStyle.visibility ≠ "hidden" ∧
    0 < plainRect.width ∧ 0 < plainRect.height ∧
    openRectsIntersect (plainRect.left : ℚ) (plainRect.right : ℚ)
      (plainRect.top : ℚ) (plainRect.bottom : ℚ)
      (-(scenarioArgs.viewportExpansion : ℚ))
      ((scenarioArgs.viewport.width : ℚ) + (scenarioArgs.viewportExpansion : ℚ))
      (-(scenarioArgs.viewportExpansion : ℚ))
      ((scenarioArgs.viewport.height : ℚ) + (scenarioArgs.viewportExpansion : ℚ)) :=
  (c8_visibility scenarioArgs plainStyle plainRect (by decide) (by decide)
    (by decide)).mp rfl

/-- Clamping a JavaScript number with `Math.max(0, Math.min(1, x))` yields
a number within the unit interval, except that NaN input propagates to NaN
output. -/
theorem clamp_cases (x : JsNumber) :
    (JsNumber.jsMax (JsNumber.num 0) (JsNumber.jsMin (JsNumber.num 1) x)).withinUnit = true ∨
    (x = JsNumber.nan ∧
      JsNumber.jsMax (JsNumber.num 0) (JsNumber.jsMin (JsNumber.num 1) x) = JsNumber.nan) := by
  cases x with
  | num q =>
    left
    simp only [JsNumber.jsMin, JsNumber.jsMax, JsNumber.withinUnit]
    rw [decide_eq_true_eq]
    exact ⟨le_max_left _ _, max_le (by norm_num) (min_le_left _ _)⟩
  | inf =>
    left
    simp only [JsNumber.jsMin, JsNumber.jsMax, JsNumber.withinUnit]
    rw [decide_eq_true_eq]
    exact ⟨le_max_left _ _, max_le (by norm_num) (by norm_num)⟩
  | negInf =>
    left
    simp only [JsNumber.jsMin, JsNumber.jsMax, JsNumber.withinUnit]
    rw [decide_eq_true_eq]
    norm_num
  | nan => exact Or.inr ⟨rfl, rfl⟩

/-- The clamp produces NaN only from NaN. -/
theorem clamp_nan_source (x : JsNumber)
    (h : JsNumber.jsMax (JsNumber.num 0) (JsNumber.jsMin (JsNumber.num 1) x) = JsNumber.nan) :
    x = JsNumber.nan := by
  cases x with
  | num q => exact absurd h (by simp [JsNumber.jsMin, JsNumber.jsMax])
  | inf => exact absurd h (by simp [JsNumber.jsMin, JsNumber.jsMax])
  | negInf => exact absurd h (by simp [JsNumber.jsMin, JsNumber.jsMax])
  | nan => rfl

/-- When the clamp produces a finite number, it lies in the unit interval. -/
theorem clamp_num_bounds (x : JsNumber) (q : ℚ)
    (h : JsNumber.jsMax (JsNumber.num 0) (JsNumber.jsMin (JsNumber.num 1) x) =
      JsNumber.num q) :
    0 ≤ q ∧ q ≤ 1 := by
  cases x with
  | num a =>
    simp only [JsNumber.jsMin, JsNumber.jsMax, JsNumber.num.injEq] at h
    subst h
    exact ⟨le_max_left _ _, max_le (by norm_num) (min_le_left _ _)⟩
  | inf =>
    simp only [JsNumber.jsMin, JsNumber.jsMax, JsNumber.num.injEq] at h
    subst h
    exact ⟨le_max_left _ _, max_le (by norm_num) (by norm_num)⟩
  | negInf =>
    simp only [JsNumber.jsMin, JsNumber.jsMax, JsNumber.num.injEq] at h
    subst h
    norm_num
  | nan => simp [JsNumber.jsMin, JsNumber.jsMax] at h

/-- C10 (amended): every `ElementSelectionResult` returned by
`selectElement` has a confidence that is either a number in the closed unit
interval or NaN: a parsed numeric (or absent or falsy) confidence is clamped
into the interval, every failure path — parse failure, null selection,
index missing from the map, retries exhausted — reports confidence 0, and
the sole escape is NaN, which occurs only when the selected response carried
a truthy confidence value whose JavaScript number coercion is NaN (for
example a non-numeric string), and which the clamp propagates. -/
theorem c10_confidence_bounds :
    (∀ (parsed : Option ParsedResponseM) (selectorMap : List (Int × DOMElementNode)),
      (parseLLMResponse parsed selectorMap).confidence.withinUnit = true ∨
      (parseLLMResponse parsed selectorMap).confidence = JsNumber.nan) ∧
    (∀ (parsed : Option ParsedResponseM) (selectorMap : List (Int × DOMElementNode)) (q : ℚ),
      (parseLLMResponse parsed selectorMap).confidence = JsNumber.num q →
      0 ≤ q ∧ q ≤ 1) ∧
    (∀ selectorMap, (parseLLMResponse none selectorMap).confidence = JsNumber.num 0) ∧
    (∀ (p : ParsedResponseM) selectorMap, p.selectedIndex = none →
      (parseLLMResponse (some p) selectorMap).confidence = JsNumber.num 0) ∧
    (∀ (p : ParsedResponseM) selectorMap (i : Int), p.selectedIndex = some i →
      lookupEq selectorMap i = none →
      (parseLLMResponse (some p) selectorMap).confidence = JsNumber.num 0) ∧
    (∀ (p : ParsedResponseM) (selectorMap : List (Int × DOMElementNode)),
      (parseLLMResponse (some p) selectorMap).confidence = JsNumber.nan →
      ∃ v, p.confidence = some v ∧ JsonConf.truthy v = true ∧
        JsonConf.toNumber v = JsNumber.nan) ∧
    (∀ (selectorMap : List (Int × DOMElementNode)) (maxRetries : Nat),
      selectElement selectorMap maxRetries [] = Except.ok failedAllResult ∧
      failedAllResult.confidence = JsNumber.num 0) ∧
    (∀ (selectorMap : List (Int × DOMElementNode)) (maxRetries : Nat)
        (attempts : List (Except String (Option ParsedResponseM)))
        (r : ElementSelectionResultM),
      selectElement selectorMap maxRetries attempts = Except.ok r →
      (r.confidence.withinUnit = true ∨ r.confidence = JsNumber.nan)) := by
  have hparse : ∀ (parsed : Option ParsedResponseM)
      (selectorMap : List (Int × DOMElementNode)),
      (parseLLMResponse parsed selectorMap).confidence.withinUnit = true ∨
      (parseLLMResponse parsed selectorMap).confidence = JsNumber.nan := by
    intro parsed m
    cases parsed with
    | none =>
      left
      rw [show (parseLLMResponse none m).confidence = JsNumber.num 0 from rfl]
      simp [JsNumber.withinUnit]
    | some p =>
      cases hsi : p.selectedIndex with
      | none =>
        left
        simp only [parseLLMResponse, hsi]
        simp [JsNumber.withinUnit]
      | some i =>
        cases hlk : lookupEq m i with
        | none =>
          left
          simp only [parseLLMResponse, hsi, hlk]
          simp [JsNumber.withinUnit]
        | some el =>
          simp only [parseLLMResponse, hsi, hlk]
          exact (clamp_cases _).imp (fun h => h) And.right
  have hnum : ∀ (parsed : Option ParsedResponseM)
      (selectorMap : List (Int × DOMElementNode)) (q : ℚ),
      (parseLLMResponse parsed selectorMap).confidence = JsNumber.num q →
      0 ≤ q ∧ q ≤ 1 := by
    intro parsed m q hq
    cases parsed with
    | none =>
      simp only [parseLLMResponse, JsNumber.num.injEq] at hq
      subst hq
      norm_num
    | some p =>
      cases hsi : p.selectedIndex with
      | none =>
        simp only [parseLLMResponse, hsi, JsNumber.num.injEq] at hq
        subst hq
        norm_num
      | some i =>
        cases hlk : lookupEq m i with
        | none =>
          simp only [parseLLMResponse, hsi, hlk, JsNumber.num.injEq] at hq
          subst hq
          norm_num
        | some el =>
          simp only [parseLLMResponse, hsi, hlk] at hq
          exact clamp_num_bounds _ q hq
  have hloop : ∀ (selectorMap : List (Int × DOMElementNode)) (maxRetries : Nat)
      (attempts : List (Except String (Option ParsedResponseM)))
      (r : ElementSelectionResultM),
      selectElement selectorMap maxRetries attempts = Except.ok r →
      (r.confidence.withinUnit = true ∨ r.confidence = JsNumber.nan) := by
    intro m mr attempts
    induction attempts with
    | nil =>
      intro r h
      simp only [selectElement] at h
      cases h
      left
      simp [failedAllResult, JsNumber.withinUnit]
    | cons a rest ih =>
      intro r h
      cases a with
      | ok resp =>
        simp only [selectElement] at h
        by_cases hsel : (parseLLMResponse resp m).selectedElement.isSome = true
        · rw [if_pos hsel] at h
          cases h
          exact hparse resp m
        · rw [if_neg hsel] at h
          exact ih r h
      | error e =>
        simp only [selectElement] at h
        by_cases hrest : rest.isEmpty = true
        · rw [if_pos hrest] at h
          exact absurd h (by simp)
        · rw [if_neg hrest] at h
          exact ih r h
  refine ⟨hparse, hnum, ?_, ?_, ?_, ?_, ?_, hloop⟩
  · intro m
    rfl
  · intro p m hsi
    simp [parseLLMResponse, hsi]
  · intro p m i hsi hlk
    simp [parseLLMResponse, hsi, hlk]
  · intro p m hnan
    cases hsi : p.selectedIndex with
    | none => simp [parseLLMResponse, hsi] at hnan
    | some i =>
      cases hlk : lookupEq m i with
      | none => simp [parseLLMResponse, hsi, hlk] at hnan
      | some el =>
        simp only [parseLLMResponse, hsi, hlk] at hnan
        have hx := clamp_nan_source _ hnan
        cases hc : p.confidence with
        | none =>
          rw [hc] at hx
          simp [JsonConf.toNumber] at hx
        | some v =>
          by_cases htr : JsonConf.truthy v = true
          · rw [hc] at hx
            simp only [htr, if_pos] at hx
            exact ⟨v, rfl, htr, hx⟩
          · rw [hc] at hx
            simp only [htr, if_neg, if_false] at hx
            simp [JsonConf.toNumber] at hx
  · intro m mr
    exact ⟨rfl, rfl⟩

/-- C10 counterexample: the claim demands a confidence in the closed
interval from 0 to 1 for every returned result.  For the reachable reply
`{"selectedIndex": 0, "confidence": "high", "reasoning": "sure"}` with
index 0 present in the map, the source computes
`Math.max(0, Math.min(1, "high"))`, whose ToNumber coercion of the
non-numeric string is NaN; `selectElement` returns that result, and NaN is
not within the unit interval. -/
theorem c10_confidence_bounds_counterexample :
    selectElement [((0 : Int), ⟨"button", "/html/body/button", [], some 0⟩)] 3
      [Except.ok (some ⟨some 0, some (JsonConf.str "high"), some "sure"⟩)] =
      Except.ok ⟨some ⟨"button", "/html/body/button", [], some 0⟩, some 0,
        JsNumber.nan, "sure"⟩ ∧
    JsNumber.withinUnit JsNumber.nan = false :=
  ⟨rfl, rfl⟩

/-- C10 witness: the retries-exhausted result returned on an empty attempt
list is within bounds. -/
theorem c10_confidence_bounds_witness :
    failedAllResult.confidence.withinUnit = true ∨
    failedAllResult.confidence = JsNumber.nan :=
  c10_confidence_bounds.2.2.2.2.2.2.2 [] 3 [] failedAllResult rfl

/-- Assigned highlight values distribute over map concatenation. -/
theorem highlightValues_append (a b : List (String × NodeData)) :
    highlightValues (a ++ b) = highlightValues a ++ highlightValues b :=
  List.filterMap_append a b _

/-- Assigned element-index values distribute over map concatenation. -/
theorem elementValues_append (a b : List (String × NodeData)) :
    elementValues (a ++ b) = elementValues a ++ elementValues b :=
  List.filterMap_append a b _

/-- A pointwise `isSome` implication between two `filterMap` functions bounds
the lengths of the filtered lists. -/
theorem filterMap_length_mono {α β γ : Type} (f : α → Option β) (g : α → Option γ) :
    ∀ l : List α, (∀ a ∈ l, (f a).isSome = true → (g a).isSome = true) →
      (l.filterMap f).length ≤ (l.filterMap g).length := by
  intro l
  induction l with
  | nil => intro _; simp
  | cons a t ih =>
    intro h
    have ht := ih (fun x hx hfx => h x (List.mem_cons_of_mem a hx) hfx)
    cases hfa : f a with
    | none =>
      cases hga : g a with
      | none => simpa [List.filterMap_cons, hfa, hga] using ht
      | some c =>
        simp only [List.filterMap_cons, hfa, hga, List.length_cons]
        omega
    | some b =>
      have hgs : (g a).isSome = true := h a (List.mem_cons_self a t) (by simp [hfa])
      obtain ⟨c, hga⟩ := Option.isSome_iff_exists.mp hgs
      simp only [List.filterMap_cons, hfa, hga, List.length_cons]
      omega

/-- Unfolding equation: assigning from a counter when the condition holds. -/
theorem assignIdx_true (counter : Nat) : assignIdx true counter = (some counter, counter + 1) := rfl

/-- Unfolding equation: assigning from a counter when the condition fails. -/
theorem assignIdx_false (counter : Nat) : assignIdx false counter = (none, counter) := rfl

/-- The traversed node is an element, never a text node. -/
theorem elem_text_check : decide (traversedNodeType = Node_TEXT_NODE) = false := rfl

mutual
/-- Traversal invariant for one `traverseElement` call: see `travOk`. -/
theorem traverseElement_ok (args : BuildArgs) (d : Dom) (isBody : Bool)
    (pp seg : String) (isTop : Bool) (st : TravState) :
    travOk st (traverseElement args d isBody pp seg isTop st).2 := by
  cases d with
  | textNode s =>
    simp only [traverseElement]
    exact ⟨[], by simp, le_refl _, le_refl _,
      by simp [highlightValues], by simp [elementValues],
      by intro p hp; cases hp⟩
  | elem tag attrs style rect children =>
    cases hb : isElementVisible args style rect && isElementInteractive tag attrs with
    | true =>
      simp only [traverseElement, hb, assignIdx_true, elem_text_check,
        Option.isSome_some, Option.isSome_none, Bool.true_or, Bool.false_or]
      obtain ⟨Δc, hmap, hhc, hec, hpH, hpE, hok⟩ :=
        traverseChildren_ok args children
          (childPrefixOf tag ((lookupEq attrs "id").getD "") isBody pp seg)
          (isElementVisible args style rect) []
          ⟨st.nodeIdCounter + 1, st.highlightCounter + 1, st.elementCounter + 1, st.nodeMap⟩
      set C := traverseChildren args children
          (childPrefixOf tag ((lookupEq attrs "id").getD "") isBody pp seg)
          (isElementVisible args style rect) []
          ⟨st.nodeIdCounter + 1, st.highlightCounter + 1, st.elementCounter + 1, st.nodeMap⟩
        with hC
      have hmap2 : C.2.nodeMap = st.nodeMap ++ Δc := hmap
      have hhc2 : st.highlightCounter + 1 ≤ C.2.highlightCounter := hhc
      have hec2 : st.elementCounter + 1 ≤ C.2.elementCounter := hec
      have hpH2 : List.Perm (highlightValues Δc)
          (List.range' (st.highlightCounter + 1)
            (C.2.highlightCounter - (st.highlightCounter + 1))) := hpH
      have hpE2 : List.Perm (elementValues Δc)
          (List.range' (st.elementCounter + 1)
            (C.2.elementCounter - (st.elementCounter + 1))) := hpE
      refine ⟨Δc ++ [("node_" ++ toString st.nodeIdCounter,
        NodeData.elementNode
          ⟨jsToLower tag,
           getXPathOf ((lookupEq attrs "id").getD "") isBody pp seg, attrs,
           jsTrim (DomList.textContentAll children),
           isElementVisible args style rect, isElementInteractive tag attrs, isTop,
           isElementVisible args style rect, false, some st.highlightCounter,
           some st.elementCounter, C.1⟩)], ?_, ?_, ?_, ?_, ?_, ?_⟩
      · dsimp only
        rw [hmap2, List.append_assoc]
      · dsimp only
        omega
      · dsimp only
        omega
      · dsimp only
        rw [highlightValues_append]
        have hone : highlightValues [("node_" ++ toString st.nodeIdCounter,
            NodeData.elementNode
              ⟨jsToLower tag,
               getXPathOf ((lookupEq attrs "id").getD "") isBody pp seg, attrs,
               jsTrim (DomList.textContentAll children),
               isElementVisible args style rect, isElementInteractive tag attrs, isTop,
               isElementVisible args style rect, false, some st.highlightCounter,
               some st.elementCounter, C.1⟩)] = [st.highlightCounter] := rfl
        rw [hone, show C.2.highlightCounter - st.highlightCounter =
          (C.2.highlightCounter - (st.highlightCounter + 1)) + 1 from by omega,
          List.range'_succ]
        exact (List.perm_append_singleton _ _).trans (hpH2.cons st.highlightCounter)
      · dsimp only
        rw [elementValues_append]
        have hone : elementValues [("node_" ++ toString st.nodeIdCounter,
            NodeData.elementNode
              ⟨jsToLower tag,
               getXPathOf ((lookupEq attrs "id").getD "") isBody pp seg, attrs,
               jsTrim (DomList.textContentAll children),
               isElementVisible args style rect, isElementInteractive tag attrs, isTop,
               isElementVisible args style rect, false, some st.highlightCounter,
               some st.elementCounter, C.1⟩)] = [st.elementCounter] := rfl
        rw [hone, show C.2.elementCounter - st.elementCounter =
          (C.2.elementCounter - (st.elementCounter + 1)) + 1 from by omega,
          List.range'_succ]
        exact (List.perm_append_singleton _ _).trans (hpE2.cons st.elementCounter)
      · intro p hp
        rcases List.mem_append.mp hp with h1 | h1
        · exact hok p h1
        · rcases List.mem_singleton.mp h1 with rfl
          exact ⟨rfl, rfl⟩
    | false =>
      simp only [traverseElement, hb, assignIdx_false, elem_text_check,
        Option.isSome_some, Option.isSome_none, Bool.true_or, Bool.false_or]
      obtain ⟨Δc, hmap, hhc, hec, hpH, hpE, hok⟩ :=
        traverseChildren_ok args children
          (childPrefixOf tag ((lookupEq attrs "id").getD "") isBody pp seg)
          (isElementVisible args style rect) []
          ⟨st.nodeIdCounter + 1, st.highlightCounter, st.elementCounter, st.nodeMap⟩
      set C := traverseChildren args children
          (childPrefixOf tag ((lookupEq attrs "id").getD "") isBody pp seg)
          (isElementVisible args style rect) []
          ⟨st.nodeIdCounter + 1, st.highlightCounter, st.elementCounter, st.nodeMap⟩
        with hC
      have hmap2 : C.2.nodeMap = st.nodeMap ++ Δc := hmap
      have hhc2 : st.highlightCounter ≤ C.2.highlightCounter := hhc
      have hec2 : st.elementCounter ≤ C.2.elementCounter := hec
      have hpH2 : List.Perm (highlightValues Δc)
          (List.range' st.highlightCounter
            (C.2.highlightCounter - st.highlightCounter)) := hpH
      have hpE2 : List.Perm (elementValues Δc)
          (List.range' st.elementCounter
            (C.2.elementCounter - st.elementCounter)) := hpE
      refine ⟨Δc ++ [("node_" ++ toString st.nodeIdCounter,
        NodeData.elementNode
          ⟨jsToLower tag,
           getXPathOf ((lookupEq attrs "id").getD "") isBody pp seg, attrs,
           jsTrim (DomList.textContentAll children),
           isElementVisible args style rect, isElementInteractive tag attrs, isTop,
           isElementVisible args style rect, false, none, none, C.1⟩)],
        ?_, ?_, ?_, ?_, ?_, ?_⟩
      · dsimp only
        rw [hmap2, List.append_assoc]
      · dsimp only
        omega
      · dsimp only
        omega
      · dsimp only
        rw [highlightValues_append]
        have hone : highlightValues [("node_" ++ toString st.nodeIdCounter,
            NodeData.elementNode
              ⟨jsToLower tag,
               getXPathOf ((lookupEq attrs "id").getD "") isBody pp seg, attrs,
               jsTrim (DomList.textContentAll children),
               isElementVisible args style rect, isElementInteractive tag attrs, isTop,
               isElementVisible args style rect, false, none, none, C.1⟩)] = [] := rfl
        rw [hone, List.append_nil]
        exact hpH2
      · dsimp only
        rw [elementValues_append]
        have hone : elementValues [("node_" ++ toString st.nodeIdCounter,
            NodeData.elementNode
              ⟨jsToLower tag,
               getXPathOf ((lookupEq attrs "id").getD "") isBody pp seg, attrs,
               jsTrim (DomList.textContentAll children),
               isElementVisible args style rect, isElementInteractive tag attrs, isTop,
               isElementVisible args style rect, false, none, none, C.1⟩)] = [] := rfl
        rw [hone, List.append_nil]
        exact hpE2
      · intro p hp
        rcases List.mem_append.mp hp with h1 | h1
        · exact hok p h1
        · rcases List.mem_singleton.mp h1 with rfl
          exact ⟨rfl, rfl⟩

/-- Traversal invariant for the child loop: see `travOk`. -/
theorem traverseChildren_ok (args : BuildArgs) (cs : DomList) (pp : String)
    (pv : Bool) (tags : List String) (st : TravState) :
    travOk st (traverseChildren args cs pp pv tags st).2 := by
  cases cs with
  | nil =>
    simp only [traverseChildren]
    exact ⟨[], by simp, le_refl _, le_refl _,
      by simp [highlightValues], by simp [elementValues],
      by intro p hp; cases hp⟩
  | cons c rest =>
    cases c with
    | textNode s =>
      by_cases ht : jsTrim s = ""
      · simp only [traverseChildren, ht, if_pos]
        exact traverseChildren_ok args rest pp pv tags st
      · simp only [traverseChildren, ht, if_neg, if_false]
        obtain ⟨Δr, hmap, hhc, hec, hpH, hpE, hok⟩ :=
          traverseChildren_ok args rest pp pv tags
            ⟨st.nodeIdCounter + 1, st.highlightCounter, st.elementCounter,
             st.nodeMap ++ [("text_" ++ toString st.nodeIdCounter,
               NodeData.textEntry (jsTrim s) pv)]⟩
        set R := traverseChildren args rest pp pv tags
            ⟨st.nodeIdCounter + 1, st.highlightCounter, st.elementCounter,
             st.nodeMap ++ [("text_" ++ toString st.nodeIdCounter,
               NodeData.textEntry (jsTrim s) pv)]⟩
          with hR
        have hmap2 : R.2.nodeMap =
            (st.nodeMap ++ [("text_" ++ toString st.nodeIdCounter,
              NodeData.textEntry (jsTrim s) pv)]) ++ Δr := hmap
        have hhc2 : st.highlightCounter ≤ R.2.highlightCounter := hhc
        have hec2 : st.elementCounter ≤ R.2.elementCounter := hec
        have hpH2 : List.Perm (highlightValues Δr)
            (List.range' st.highlightCounter
              (R.2.highlightCounter - st.highlightCounter)) := hpH
        have hpE2 : List.Perm (elementValues Δr)
            (List.range' st.elementCounter
              (R.2.elementCounter - st.elementCounter)) := hpE
        refine ⟨("text_" ++ toString st.nodeIdCounter,
          NodeData.textEntry (jsTrim s) pv) :: Δr, ?_, ?_, ?_, ?_, ?_, ?_⟩
        · dsimp only
          rw [hmap2]
          simp
        · exact hhc2
        · exact hec2
        · simpa [highlightValues] using hpH2
        · simpa [elementValues] using hpE2
        · intro p hp
          rcases List.mem_cons.mp hp with rfl | h1
          · exact trivial
          · exact hok p h1
    | elem ctag cattrs cstyle crect ccs =>
      simp only [traverseChildren]
      obtain ⟨Δe, hmapE, hhcE, hecE, hpHE, hpEE, hokE⟩ :=
        traverseElement_ok args (Dom.elem ctag cattrs cstyle crect ccs) false pp
          (xpathSegment ctag (1 + List.countP (fun t => decide (t = jsToLower ctag)) tags))
          false st
      set E := traverseElement args (Dom.elem ctag cattrs cstyle crect ccs) false pp
          (xpathSegment ctag (1 + List.countP (fun t => decide (t = jsToLower ctag)) tags))
          false st
        with hE
      obtain ⟨Δr, hmapR, hhcR, hecR, hpHR, hpER, hokR⟩ :=
        traverseChildren_ok args rest pp pv (tags ++ [jsToLower ctag]) E.2
      set R := traverseChildren args rest pp pv (tags ++ [jsToLower ctag]) E.2 with hR
      refine ⟨Δe ++ Δr, ?_, ?_, ?_, ?_, ?_, ?_⟩
      · dsimp only
        rw [hmapR, hmapE, List.append_assoc]
      · exact le_trans hhcE hhcR
      · exact le_trans hecE hecR
      · dsimp only
        rw [highlightValues_append]
        have hmid := List.range'_append_1 st.highlightCounter
          (E.2.highlightCounter - st.highlightCounter)
          (R.2.highlightCounter - E.2.highlightCounter)
        rw [show st.highlightCounter + (E.2.highlightCounter - st.highlightCounter) =
          E.2.highlightCounter from by omega] at hmid
        rw [show (R.2.highlightCounter - E.2.highlightCounter) +
          (E.2.highlightCounter - st.highlightCounter) =
          R.2.highlightCounter - st.highlightCounter from by omega] at hmid
        rw [← hmid]
        exact hpHE.append hpHR
      · dsimp only
        rw [elementValues_append]
        have hmid := List.range'_append_1 st.elementCounter
          (E.2.elementCounter - st.elementCounter)
          (R.2.elementCounter - E.2.elementCounter)
        rw [show st.elementCounter + (E.2.elementCounter - st.elementCounter) =
          E.2.elementCounter from by omega] at hmid
        rw [show (R.2.elementCounter - E.2.elementCounter) +
          (E.2.elementCounter - st.elementCounter) =
          R.2.elementCounter - st.elementCounter from by omega] at hmid
        rw [← hmid]
        exact hpEE.append hpER
      · intro p hp
        rcases List.mem_append.mp hp with h1 | h1
        · exact hokE p h1
        · exact hokR p h1
end

/-- Every entry of a snapshot node map satisfies the pointwise invariant. -/
theorem buildDomTree_entryOk (args : BuildArgs) (body : Dom) :
    ∀ p ∈ (buildDomTreeOverlay args body).2.nodeMap, entryOk p := by
  obtain ⟨Δ, hmap, _, _, _, _, hok⟩ :=
    traverseElement_ok args body true "/html" "body" true ⟨0, 0, 0, []⟩
  have hmap2 : (buildDomTreeOverlay args body).2.nodeMap = Δ := hmap
  intro p hp
  rw [hmap2] at hp
  exact hok p hp

/-- C2: in every snapshot, a node with a non-null `highlightIndex` also has a
non-null `elementIndex`; consequently every SelectorMap entry corresponds to
an ElementMap entry holding the same node, and the ElementMap is at least as
large as the SelectorMap. -/
theorem c2_subset_invariant :
    (∀ (args : BuildArgs) (body : Dom) (nodeId : String) (d : ElemData),
      (nodeId, NodeData.elementNode d) ∈ (buildDomTreeOverlay args body).2.nodeMap →
      d.highlightIndex.isSome = true → d.elementIndex.isSome = true) ∧
    (∀ (args : BuildArgs) (body : Dom) (h : Nat) (nd : ElemData),
      (h, nd) ∈ selectorMapOf (buildDomTreeOverlay args body).2.nodeMap →
      ∃ e, nd.elementIndex = some e ∧
        (e, nd) ∈ elementMapOf (buildDomTreeOverlay args body).2.nodeMap) ∧
    (∀ (args : BuildArgs) (body : Dom),
      (selectorMapOf (buildDomTreeOverlay args body).2.nodeMap).length ≤
        (elementMapOf (buildDomTreeOverlay args body).2.nodeMap).length) := by
  have part1 : ∀ (args : BuildArgs) (body : Dom) (nodeId : String) (d : ElemData),
      (nodeId, NodeData.elementNode d) ∈ (buildDomTreeOverlay args body).2.nodeMap →
      d.highlightIndex.isSome = true → d.elementIndex.isSome = true := by
    intro args body nodeId d hmem hhi
    have hok := buildDomTree_entryOk args body _ hmem
    simp only [entryOk] at hok
    rw [hok.1, hhi]
  refine ⟨part1, ?_, ?_⟩
  · intro args body h nd hmem
    simp only [selectorMapOf] at hmem
    obtain ⟨⟨key, entry⟩, hentry, heq⟩ := List.mem_filterMap.mp hmem
    cases entry with
    | textEntry t v => simp at heq
    | elementNode d =>
      cases hhi : d.highlightIndex with
      | none => simp [hhi] at heq
      | some hh =>
        simp only [hhi, Option.some.injEq, Prod.mk.injEq] at heq
        obtain ⟨rfl, rfl⟩ := heq
        have hsome : d.elementIndex.isSome = true :=
          part1 args body key d hentry (by simp [hhi])
        obtain ⟨e, he⟩ := Option.isSome_iff_exists.mp hsome
        refine ⟨e, he, ?_⟩
        simp only [elementMapOf]
        exact List.mem_filterMap.mpr ⟨(key, NodeData.elementNode d), hentry, by simp [he]⟩
  · intro args body
    simp only [selectorMapOf, elementMapOf]
    apply filterMap_length_mono
    intro a ha hfa
    have hok := buildDomTree_entryOk args body a ha
    cases a with
    | mk key entry =>
      cases entry with
      | textEntry t v => simp at hfa
      | elementNode d =>
        simp only [entryOk] at hok
        cases hhi : d.highlightIndex with
        | none => simp [hhi] at hfa
        | some hh =>
          have hsome : d.elementIndex.isSome = true := by
            rw [hok.1]
            simp [hhi]
          obtain ⟨e, he⟩ := Option.isSome_iff_exists.mp hsome
          simp [he]

/-- C2 witness: in the scenario snapshot, the button entry has both indices
assigned. -/
theorem c2_subset_invariant_witness : scenarioButtonData.elementIndex.isSome = true :=
  c2_subset_invariant.1 scenarioArgs scenarioDoc "node_3" scenarioButtonData
    (by decide) (by decide)

/-- C3: in every snapshot, the multiset of assigned `highlightIndex` values
is exactly `{0, ..., k-1}` for some k (no gaps, no duplicates), and likewise
the assigned `elementIndex` values are exactly `{0, ..., m-1}` for some m. -/
theorem c3_index_density (args : BuildArgs) (body : Dom) :
    (∃ k, List.Perm (highlightValues (buildDomTreeOverlay args body).2.nodeMap)
      (List.range k)) ∧
    (∃ m, List.Perm (elementValues (buildDomTreeOverlay args body).2.nodeMap)
      (List.range m)) := by
  obtain ⟨Δ, hmap, _, _, hpH, hpE, _⟩ :=
    traverseElement_ok args body true "/html" "body" true ⟨0, 0, 0, []⟩
  have hmap2 : (buildDomTreeOverlay args body).2.nodeMap = Δ := hmap
  constructor
  · refine ⟨(buildDomTreeOverlay args body).2.highlightCounter, ?_⟩
    rw [hmap2, List.range_eq_range']
    exact hpH
  · refine ⟨(buildDomTreeOverlay args body).2.elementCounter, ?_⟩
    rw [hmap2, List.range_eq_range']
    exact hpE

/-- C9: in every snapshot, the `isInViewport` flag of an element entry equals
its `isVisible` flag — the two booleans are never assigned independently. -/
theorem c9_in_viewport (args : BuildArgs) (body : Dom) (nodeId : String)
    (d : ElemData)
    (hmem : (nodeId, NodeData.elementNode d) ∈ (buildDomTreeOverlay args body).2.nodeMap) :
    d.isInViewport = d.isVisible := by
  have hok := buildDomTree_entryOk args body _ hmem
  simp only [entryOk] at hok
  exact hok.2

/-- C9 witness: the scenario h1 entry. -/
theorem c9_in_viewport_witness : scenarioH1Data.isInViewport = scenarioH1Data.isVisible :=
  c9_in_viewport scenarioArgs scenarioDoc "node_1" scenarioH1Data (by decide)

/-- C1 counterexample: on the spec §8 scenario document the h1 is recorded
with `elementIndex = null` (not the next `elementIndex` value), and the
ElementMap has exactly one entry (not at least two): inside
`traverseElement` the text-node branch of the element-index condition is
dead, so `elementIndex` is only ever assigned together with
`highlightIndex`. -/
theorem c1_scenario_counterexample :
    (elemDataOf scenarioMap "node_1").map ElemData.tagName = some "h1" ∧
    (elemDataOf scenarioMap "node_1").map ElemData.elementIndex = some none ∧
    (elementMapOf scenarioMap).length = 1 :=
  ⟨rfl, rfl, rfl⟩

/-- C1 (amended): snapshotting the scenario document assigns
`highlightIndex = 0` and `elementIndex = 0` to the button and
`highlightIndex = null` and `elementIndex = null` to the h1; the SelectorMap
has exactly one entry and the ElementMap has exactly one entry. -/
theorem c1_scenario_amended :
    (elemDataOf scenarioMap "node_3").map ElemData.tagName = some "button" ∧
    (elemDataOf scenarioMap "node_3").map ElemData.highlightIndex = some (some 0) ∧
    (elemDataOf scenarioMap "node_3").map ElemData.elementIndex = some (some 0) ∧
    (elemDataOf scenarioMap "node_1").map ElemData.tagName = some "h1" ∧
    (elemDataOf scenarioMap "node_1").map ElemData.highlightIndex = some none ∧
    (elemDataOf scenarioMap "node_1").map ElemData.elementIndex = some none ∧
    (selectorMapOf scenarioMap).length = 1 ∧
    (elementMapOf scenarioMap).length = 1 :=
  ⟨rfl, rfl, rfl, rfl, rfl, rfl, rfl, rfl⟩
